import Mathlib

/-!
Verification development for the `lyra-project` voice-interaction front end
(`src/frontend/app.js`). The JavaScript is shallowly embedded: strings are
sequences of characters, JS values that can reach `sanitizeSpokenInput` are an
inductive `JSValue`, the asynchronous request in `sendToLyra` is modelled by an
explicit `FetchOutcome` describing how the fetch/parse/status check resolved,
and the event-driven state machine is a step function on `InteractionState`.
-/

/-! ## JS values and truthiness -/

/-- Values that can flow into `sanitizeSpokenInput` / `transcript || ''`.
Numbers are modelled as integers (the code never produces fractional
transcripts); an object is abstracted to its `String(...)` form. -/
inductive JSValue where
  | str (s : String)
  | num (n : Int)
  | boolean (b : Bool)
  | null
  | undefined
  | object
deriving DecidableEq, Repr

/-- JS truthiness test on the modelled values: `""`, `0`, `false`, `null`,
`undefined` are falsy; every object is truthy. -/
def JSValue.isFalsy : JSValue → Bool
  | .str s => s = ""
  | .num n => n = 0
  | .boolean b => !b
  | .null => true
  | .undefined => true
  | .object => false

/-- The `String(v)` conversion of the embedded values. -/
def JSValue.toStringJs : JSValue → String
  | .str s => s
  | .num n => toString n
  | .boolean b => if b then "true" else "false"
  | .null => "null"
  | .undefined => "undefined"
  | .object => "[object Object]"

/-- JS `v || ''` on a value: a falsy value is replaced by the empty string. -/
def jsOrEmpty (v : JSValue) : JSValue :=
  if v.isFalsy then .str "" else v

/-- JS `v || fallback` where `v` is an optional string field of a parsed JSON
object: an absent field (`undefined`) and an empty string are both falsy, so
the fallback is taken for them. -/
def jsOrStr (v : Option String) (fallback : String) : String :=
  match v with
  | some s => if s = "" then fallback else s
  | none => fallback

/-! ## Text sanitizer (`sanitizeSpokenInput`, app.js lines 65-71) -/

/-- The characters of the regex class in
`.replace(/[<>` `$\\]/g, ' ')` : `<`, `>`, backtick, `$`, backslash. -/
def isForbidden (c : Char) : Bool :=
  c = '<' || c = '>' || c = '\x60' || c = '$' || c = '\\'

/-- Replacement performed by the first `.replace`: each forbidden character
becomes a space, all others are kept. -/
def replChar (c : Char) : Char :=
  if isForbidden c then ' ' else c

/-- JS whitespace: the character class matched by the regex `\s` (which is also
the set stripped by `String.prototype.trim`). -/
def isJsWs (c : Char) : Bool :=
  c = ' ' || c = '\t' || c = '\n' || c = '\x0b' || c = '\x0c' || c = '\r' ||
  c = '\u00A0' || c = '\u1680' || ('\u2000' ≤ c && c ≤ '\u200A') ||
  c = '\u2028' || c = '\u2029' || c = '\u202F' || c = '\u205F' ||
  c = '\u3000' || c = '\uFEFF'

/-- Worker for `.replace(/\s+/g, ' ')`: the flag records whether the previous
character belonged to a whitespace run that has already emitted its space. -/
def collapseWsAux : Bool → List Char → List Char
  | _, [] => []
  | prev, c :: rest =>
    if isJsWs c then
      if prev then collapseWsAux true rest
      else ' ' :: collapseWsAux true rest
    else c :: collapseWsAux false rest

/-- JS `.replace(/\s+/g, ' ')`: every maximal run of whitespace becomes one
space. -/
def collapseWs (l : List Char) : List Char :=
  collapseWsAux false l

/-- JS `String.prototype.trim`: strip leading and trailing whitespace. -/
def trimJs (l : List Char) : List Char :=
  ((l.dropWhile isJsWs).reverse.dropWhile isJsWs).reverse

/-- Character-level body of `sanitizeSpokenInput`: replace forbidden
characters, collapse whitespace runs, trim, then `.slice(0, 600)`. -/
def sanitizeChars (l : List Char) : List Char :=
  (trimJs (collapseWs (l.map replChar))).take 600

/-- `sanitizeSpokenInput(text)` from app.js: `String(text || '')` followed by
the replace/collapse/trim/slice pipeline. Total on every modelled JS value. -/
def sanitizeSpokenInput (v : JSValue) : String :=
  String.mk (sanitizeChars (JSValue.toStringJs (jsOrEmpty v)).data)

/-! ## Voice selector (`getPreferredVoice`, app.js lines 40-48) -/

/-- The two fields of a platform voice that the selector reads. -/
structure Voice where
  lang : String
  name : String
deriving DecidableEq, Repr

/-- Substring containment on character lists. -/
def containsSub (pat : List Char) : List Char → Bool
  | [] => pat.isEmpty
  | c :: t => pat.isPrefixOf (c :: t) || containsSub pat t

/-- Case-insensitive test of an alternation regex `/p1|p2|.../i` against a
string, for ASCII patterns: some pattern occurs as a substring after
lower-casing both sides. -/
def testCI (pats : List String) (s : String) : Bool :=
  pats.any (fun p => containsSub (p.data.map Char.toLower) (s.data.map Char.toLower))

/-- Alternatives of the regional-language regex `/en-IN|hi-IN|mr-IN/i`. -/
def langPatterns : List String := ["en-IN", "hi-IN", "mr-IN"]

/-- Alternatives of the name regex
`/female|zira|heera|priya|veena|raveena|sangeeta/i`. -/
def namePatterns : List String :=
  ["female", "zira", "heera", "priya", "veena", "raveena", "sangeeta"]

/-- `getPreferredVoice()` over an explicit voice list: first language match,
else first name match, else the first voice, else `undefined` (`none`). -/
def getPreferredVoice (voices : List Voice) : Option Voice :=
  (voices.find? (fun v => testCI langPatterns v.lang)).orElse (fun _ =>
    (voices.find? (fun v => testCI namePatterns v.name)).orElse (fun _ =>
      voices.head?))

/-! ## Interaction state and UI projection (app.js lines 7-38) -/

/-- The mutable `state` object. `status` is kept as a string, exactly as in
the source, so that membership in the four-value enum is a provable invariant
rather than a typing artifact. -/
structure InteractionState where
  status : String
  currentSpeaker : String
  mode : String
  recognitionActive : Bool
deriving DecidableEq, Repr

/-- The initial `state` literal of app.js. -/
def initialState : InteractionState :=
  { status := "Idle", currentSpeaker := "Chaitu", mode := "CHILL",
    recognitionActive := false }

/-- What `updateUI` writes to the DOM: three text nodes and the three CSS
classes toggled on the mic button. -/
structure UIView where
  statusText : String
  speakerText : String
  modeText : String
  micListening : Bool
  micThinking : Bool
  micError : Bool
deriving DecidableEq, Repr

/-- `updateUI()`: a pure projection of the interaction state. -/
def updateUI (s : InteractionState) : UIView :=
  { statusText := s.status
    speakerText := s.currentSpeaker
    modeText := s.mode
    micListening := s.status = "Listening"
    micThinking := s.status = "Thinking"
    micError := s.status = "Error" }

/-- `setStatus(value)`: overwrite `state.status` (the accompanying
`updateUI()` call is the pure projection above). -/
def setStatus (v : String) (s : InteractionState) : InteractionState :=
  { s with status := v }

/-! ## Conversation client (`sendToLyra`, app.js lines 73-107) -/

/-- The parsed JSON body of a backend response; each field may be absent. -/
structure LyraData where
  error : Option String
  reply : Option String
  currentSpeaker : Option String
  mode : Option String
deriving DecidableEq, Repr

/-- How one invocation's awaited steps resolved: the fetch itself rejected,
`response.json()` threw, or a response with status flag `ok` parsed to
`data`. -/
inductive FetchOutcome where
  | networkThrow
  | parseThrow
  | response (ok : Bool) (data : LyraData)
deriving DecidableEq, Repr

/-- True exactly when the invocation reaches the `catch` block: a thrown
fetch, a thrown parse, or the `if (!response.ok) throw` check. -/
def isThrowPath : FetchOutcome → Bool
  | .networkThrow => true
  | .parseThrow => true
  | .response ok _ => !ok

/-- The fixed message spoken from the `catch` block. -/
def connectionIssueMessage : String :=
  "Sorry, I am facing a connection issue right now. Please try again."

/-- The fallback reply spoken when `data.reply` is falsy. -/
def apologyReply : String :=
  "Sorry, I could not generate a response right now."

/-- The observable result of one `sendToLyra` invocation: the state when the
function returns, the arguments passed to `speak` in order, and the
`setTimeout`-scheduled status write (delay in ms, status value), if any. -/
structure SendResult where
  state : InteractionState
  spoken : List String
  timer : Option (Nat × String)
deriving DecidableEq, Repr

/-- `sendToLyra(userText)` as a function of the pre-state and the resolution
of its awaited steps. `setStatus('Thinking')` runs first; the `catch` block
handles every throw uniformly. The state does not depend on `userText`, which
only feeds the request payload. -/
def sendToLyra (s : InteractionState) (outcome : FetchOutcome) : SendResult :=
  let s1 := setStatus "Thinking" s
  match outcome with
  | .networkThrow =>
      { state := setStatus "Error" s1
        spoken := [connectionIssueMessage]
        timer := some (1200, "Idle") }
  | .parseThrow =>
      { state := setStatus "Error" s1
        spoken := [connectionIssueMessage]
        timer := some (1200, "Idle") }
  | .response ok data =>
      if ok then
        let s2 := { s1 with
          currentSpeaker := jsOrStr data.currentSpeaker s1.currentSpeaker
          mode := jsOrStr data.mode s1.mode }
        { state := setStatus "Idle" s2
          spoken := [jsOrStr data.reply apologyReply]
          timer := none }
      else
        { state := setStatus "Error" s1
          spoken := [connectionIssueMessage]
          timer := some (1200, "Idle") }

/-! ## Recognition result handler (`recognition.onresult`, app.js 126-134) -/

/-- Observable result of the `onresult` handler: the state after its
synchronous part ran, and the message dispatched to `sendToLyra` (`none` when
no network call is made). -/
structure RecResultOutcome where
  state : InteractionState
  dispatched : Option String
deriving DecidableEq, Repr

/-- `recognition.onresult`: `event.results?.[0]?.[0]?.transcript || ''` is
modelled as an optional JS value (`none` when the chain is structurally
absent); the sanitized text either falls back to Idle or is dispatched, in
which case `sendToLyra` has synchronously set status to Thinking. -/
def onresult (s : InteractionState) (transcript : Option JSValue) : RecResultOutcome :=
  let t : JSValue := jsOrEmpty (transcript.getD .undefined)
  let cleaned := sanitizeSpokenInput t
  if cleaned = "" then
    { state := setStatus "Idle" s, dispatched := none }
  else
    { state := setStatus "Thinking" s, dispatched := some cleaned }

/-! ## Event-level state machine (all mutations of `state`) -/

/-- Every event of app.js whose handler mutates the interaction state:
recognition lifecycle callbacks, the resolution of a pending `sendToLyra`,
the two `setTimeout(() => setStatus('Idle'), _)` callbacks, the mic-button
stop branch and its `catch` fallback, and the unsupported-browser branch of
`buildRecognition`. -/
inductive AppEvent where
  | recStart
  | recResult (transcript : Option JSValue)
  | recError
  | recEnd
  | fetchDone (outcome : FetchOutcome)
  | timerIdle
  | micClickStop
  | micStartThrow
  | unsupportedBrowser
deriving DecidableEq, Repr

/-- The state transition performed by each event's handler. -/
def applyEvent (s : InteractionState) : AppEvent → InteractionState
  | .recStart => setStatus "Listening" { s with recognitionActive := true }
  | .recResult t => (onresult s t).state
  | .recError => setStatus "Error" { s with recognitionActive := false }
  | .recEnd =>
      let s1 := { s with recognitionActive := false }
      if s1.status = "Listening" then setStatus "Idle" s1 else s1
  | .fetchDone o => (sendToLyra s o).state
  | .timerIdle => setStatus "Idle" s
  | .micClickStop => setStatus "Idle" s
  | .micStartThrow => setStatus "Idle" s
  | .unsupportedBrowser => setStatus "Error" s

/-- The four-value status enum of the spec. -/
def validStatus (s : InteractionState) : Prop :=
  s.status = "Idle" ∨ s.status = "Listening" ∨ s.status = "Thinking" ∨
    s.status = "Error"

instance (s : InteractionState) : Decidable (validStatus s) := by
  unfold validStatus; infer_instance

/-- First-match characterization used to state the voice-selector claim
independently of `List.find?`: `v` occurs in `l`, satisfies `p`, and every
earlier element fails `p`. -/
def FirstMatch {α : Type} (p : α → Bool) (l : List α) (v : α) : Prop :=
  ∃ pre suf, l = pre ++ v :: suf ∧ p v = true ∧ ∀ u ∈ pre, p u = false


/-! ## Lemmas about the sanitizer -/

theorem isForbidden_replChar (c : Char) : isForbidden (replChar c) = false := by
  unfold replChar
  split
  · rfl
  · next h => simpa using h

theorem mem_collapseWsAux {c : Char} (b : Bool) (l : List Char)
    (h : c ∈ collapseWsAux b l) : c = ' ' ∨ c ∈ l := by
  induction l generalizing b with
  | nil => simp [collapseWsAux] at h
  | cons a t ih =>
    unfold collapseWsAux at h
    split at h
    · split at h
      · rcases ih _ h with h1 | h1
        · exact Or.inl h1
        · exact Or.inr (List.mem_cons_of_mem _ h1)
      · rcases List.mem_cons.mp h with h1 | h1
        · exact Or.inl h1
        · rcases ih _ h1 with h2 | h2
          · exact Or.inl h2
          · exact Or.inr (List.mem_cons_of_mem _ h2)
    · rcases List.mem_cons.mp h with h1 | h1
      · exact Or.inr (h1 ▸ List.mem_cons_self _ _)
      · rcases ih _ h1 with h2 | h2
        · exact Or.inl h2
        · exact Or.inr (List.mem_cons_of_mem _ h2)

theorem trimJs_subset (l : List Char) : trimJs l ⊆ l := by
  unfold trimJs
  intro c hc
  rw [List.mem_reverse] at hc
  have h1 := (List.dropWhile_sublist (l := (l.dropWhile isJsWs).reverse) isJsWs).subset hc
  rw [List.mem_reverse] at h1
  exact (List.dropWhile_sublist isJsWs).subset h1

theorem mem_sanitizeChars {c : Char} (l : List Char) (h : c ∈ sanitizeChars l) :
    c = ' ' ∨ c ∈ l.map replChar := by
  unfold sanitizeChars at h
  have h1 := trimJs_subset _ (List.take_subset _ _ h)
  exact mem_collapseWsAux false _ h1

theorem sanitizeChars_no_forbidden (l : List Char) :
    (sanitizeChars l).all (fun c => !isForbidden c) = true := by
  rw [List.all_eq_true]
  intro c hc
  rcases mem_sanitizeChars l hc with h | h
  · subst h; rfl
  · rcases List.mem_map.mp h with ⟨a, _, ha⟩
    simp [← ha, isForbidden_replChar]

theorem sanitizeChars_length_le (l : List Char) : (sanitizeChars l).length ≤ 600 := by
  unfold sanitizeChars
  exact List.length_take_le 600 _

/-- C2: for every modelled input value, `sanitizeSpokenInput` returns a string
(it is a total function), the result has length at most 600, and no character
of the result is one of `<`, `>`, backtick, `$`, backslash. -/
theorem sanitizeSpokenInput_safe (v : JSValue) :
    (sanitizeSpokenInput v).length ≤ 600 ∧
    (sanitizeSpokenInput v).data.all (fun c => !isForbidden c) = true := by
  unfold sanitizeSpokenInput
  constructor
  · show (String.mk _).data.length ≤ 600
    exact sanitizeChars_length_le _
  · exact sanitizeChars_no_forbidden _

/-! ## Idempotence of the sanitizer on clean input -/

/-- Effect of `.replace(/\s+/g, ' ')` on a string with no whitespace runs of
length two or more: each single whitespace character becomes a plain space. -/
def wsToSpace (c : Char) : Char :=
  if isJsWs c then ' ' else c

/-- Whether the list contains two adjacent JS-whitespace characters. -/
def hasConsecWs : List Char → Bool
  | a :: b :: t => (isJsWs a && isJsWs b) || hasConsecWs (b :: t)
  | _ => false

/-- Whether the list is free of leading and trailing JS whitespace. -/
def noEdgeWs (l : List Char) : Bool :=
  (l.head?.all fun c => !isJsWs c) && (l.getLast?.all fun c => !isJsWs c)

theorem isJsWs_wsToSpace (c : Char) : isJsWs (wsToSpace c) = isJsWs c := by
  unfold wsToSpace
  split
  · next h => rw [h]; rfl
  · rfl

theorem wsToSpace_wsToSpace (c : Char) : wsToSpace (wsToSpace c) = wsToSpace c := by
  unfold wsToSpace
  split
  · rfl
  · rfl

theorem map_replChar_of_clean (l : List Char)
    (h : l.all (fun c => !isForbidden c) = true) : l.map replChar = l := by
  rw [List.all_eq_true] at h
  have h2 : l.map replChar = l.map id := by
    apply List.map_congr_left
    intro a ha
    have : isForbidden a = false := by simpa using h a ha
    simp [replChar, this]
  rw [h2, List.map_id]

theorem collapseWsAux_noconsec (l : List Char) (h : hasConsecWs l = false) :
    collapseWsAux false l = l.map wsToSpace ∧
    ((l.head?.all fun c => !isJsWs c) = true →
      collapseWsAux true l = l.map wsToSpace) := by
  induction l with
  | nil => exact ⟨rfl, fun _ => rfl⟩
  | cons a t ih =>
    have ht : hasConsecWs t = false := by
      cases t with
      | nil => rfl
      | cons b t' =>
        have h' := h
        unfold hasConsecWs at h'
        exact (Bool.or_eq_false_iff.mp h').2
    have hta : isJsWs a = true → (t.head?.all fun c => !isJsWs c) = true := by
      intro hws
      cases t with
      | nil => rfl
      | cons b t' =>
        have h' := h
        unfold hasConsecWs at h'
        have hb : (isJsWs a && isJsWs b) = false := (Bool.or_eq_false_iff.mp h').1
        rw [hws] at hb
        simpa using hb
    have hfalse : collapseWsAux false (a :: t) = (a :: t).map wsToSpace := by
      unfold collapseWsAux
      by_cases hws : isJsWs a = true
      · rw [if_pos hws]
        have h2 := (ih ht).2 (hta hws)
        simp [h2, wsToSpace, hws]
      · have hws' : isJsWs a = false := by simpa using hws
        rw [if_neg (by simp [hws'])]
        have h1 := (ih ht).1
        simp [h1, wsToSpace, hws']
    refine ⟨hfalse, fun hhead => ?_⟩
    have hws' : isJsWs a = false := by simpa using hhead
    unfold collapseWsAux
    rw [if_neg (by simp [hws'])]
    have h1 := (ih ht).1
    simp [h1, wsToSpace, hws']

theorem collapseWs_noconsec (l : List Char) (h : hasConsecWs l = false) :
    collapseWs l = l.map wsToSpace :=
  (collapseWsAux_noconsec l h).1

theorem dropWhile_eq_self_of_head (p : Char → Bool) (l : List Char)
    (h : (l.head?.all fun c => !p c) = true) : l.dropWhile p = l := by
  cases l with
  | nil => rfl
  | cons a t =>
    have : p a = false := by simpa using h
    simp [List.dropWhile_cons, this]

theorem trimJs_eq_self (l : List Char) (h : noEdgeWs l = true) : trimJs l = l := by
  unfold noEdgeWs at h
  obtain ⟨h1, h2⟩ := Bool.and_eq_true_iff.mp h
  unfold trimJs
  rw [dropWhile_eq_self_of_head _ _ h1]
  rw [dropWhile_eq_self_of_head _ _ (by rw [List.head?_reverse]; exact h2)]
  exact List.reverse_reverse l

theorem optionAll_map_notWs (o : Option Char) :
    ((o.map wsToSpace).all fun c => !isJsWs c) = (o.all fun c => !isJsWs c) := by
  cases o with
  | none => rfl
  | some a => simp [Option.all_some, isJsWs_wsToSpace]

theorem noEdgeWs_map_wsToSpace (l : List Char) :
    noEdgeWs (l.map wsToSpace) = noEdgeWs l := by
  unfold noEdgeWs
  rw [List.head?_map, List.getLast?_map, optionAll_map_notWs, optionAll_map_notWs]

theorem hasConsecWs_map_wsToSpace (l : List Char) :
    hasConsecWs (l.map wsToSpace) = hasConsecWs l := by
  induction l with
  | nil => rfl
  | cons a t ih =>
    cases t with
    | nil => rfl
    | cons b t' =>
      have step :
          hasConsecWs (wsToSpace a :: wsToSpace b :: List.map wsToSpace t') =
            ((isJsWs (wsToSpace a) && isJsWs (wsToSpace b)) ||
              hasConsecWs (wsToSpace b :: List.map wsToSpace t')) := rfl
      calc hasConsecWs ((a :: b :: t').map wsToSpace)
          = ((isJsWs (wsToSpace a) && isJsWs (wsToSpace b)) ||
              hasConsecWs ((b :: t').map wsToSpace)) := by
            simp only [List.map_cons]; exact step
        _ = ((isJsWs a && isJsWs b) || hasConsecWs (b :: t')) := by
            rw [isJsWs_wsToSpace, isJsWs_wsToSpace, ih]
        _ = hasConsecWs (a :: b :: t') := rfl

theorem all_not_forbidden_map_wsToSpace (l : List Char)
    (h : l.all (fun c => !isForbidden c) = true) :
    (l.map wsToSpace).all (fun c => !isForbidden c) = true := by
  rw [List.all_eq_true] at h ⊢
  intro c hc
  rcases List.mem_map.mp hc with ⟨a, ha, rfl⟩
  unfold wsToSpace
  split
  · rfl
  · exact h a ha

theorem map_wsToSpace_idem (l : List Char) :
    (l.map wsToSpace).map wsToSpace = l.map wsToSpace := by
  rw [List.map_map]
  apply List.map_congr_left
  intro a _
  exact wsToSpace_wsToSpace a

theorem sanitizeChars_of_clean (l : List Char)
    (hF : l.all (fun c => !isForbidden c) = true)
    (hC : hasConsecWs l = false)
    (hE : noEdgeWs l = true)
    (hL : l.length ≤ 600) :
    sanitizeChars l = l.map wsToSpace := by
  unfold sanitizeChars
  rw [map_replChar_of_clean l hF, collapseWs_noconsec l hC]
  rw [trimJs_eq_self _ (by rw [noEdgeWs_map_wsToSpace]; exact hE)]
  exact List.take_of_length_le (by simpa using hL)

theorem sanitizeSpokenInput_str (x : String) :
    sanitizeSpokenInput (.str x) = String.mk (sanitizeChars x.data) := by
  unfold sanitizeSpokenInput jsOrEmpty
  by_cases h : x = ""
  · subst h; rfl
  · simp [JSValue.isFalsy, h, JSValue.toStringJs]

/-- C8: sanitizing a string that is already clean (no replaced characters, no
leading, trailing or consecutive whitespace) and at most 600 characters long
is idempotent. -/
theorem sanitize_idempotent_on_clean (x : String)
    (hF : x.data.all (fun c => !isForbidden c) = true)
    (hC : hasConsecWs x.data = false)
    (hE : noEdgeWs x.data = true)
    (hL : x.length ≤ 600) :
    sanitizeSpokenInput (.str (sanitizeSpokenInput (.str x))) =
      sanitizeSpokenInput (.str x) := by
  rw [sanitizeSpokenInput_str x]
  rw [sanitizeSpokenInput_str (String.mk (sanitizeChars x.data))]
  have hL' : x.data.length ≤ 600 := hL
  have h1 : sanitizeChars x.data = x.data.map wsToSpace :=
    sanitizeChars_of_clean _ hF hC hE hL'
  have h2 : sanitizeChars (x.data.map wsToSpace) = (x.data.map wsToSpace).map wsToSpace :=
    sanitizeChars_of_clean _ (all_not_forbidden_map_wsToSpace _ hF)
      (by rw [hasConsecWs_map_wsToSpace]; exact hC)
      (by rw [noEdgeWs_map_wsToSpace]; exact hE)
      (by rw [List.length_map]; exact hL')
  show String.mk (sanitizeChars (sanitizeChars x.data)) = String.mk (sanitizeChars x.data)
  rw [h1, h2, map_wsToSpace_idem]

/-- Witness for C8 at the concrete clean string `"hello world"`. -/
theorem sanitize_idempotent_on_clean_witness :
    sanitizeSpokenInput (.str (sanitizeSpokenInput (.str "hello world"))) =
      sanitizeSpokenInput (.str "hello world") :=
  sanitize_idempotent_on_clean "hello world" (by decide) (by decide) (by decide)
    (by decide)

/-! ## Lemmas for the voice selector -/

theorem find?_eq_some_iff_firstMatch {α : Type} (p : α → Bool) (l : List α) (v : α) :
    l.find? p = some v ↔ FirstMatch p l v := by
  induction l with
  | nil =>
    constructor
    · intro h; cases h
    · rintro ⟨pre, suf, heq, -, -⟩
      exact absurd heq (by simp)
  | cons a t ih =>
    by_cases hpa : p a = true
    · rw [List.find?_cons_of_pos _ hpa]
      constructor
      · intro h
        injection h with h
        subst h
        exact ⟨[], t, rfl, hpa, by intro u hu; cases hu⟩
      · rintro ⟨pre, suf, heq, hpv, hpre⟩
        cases pre with
        | nil =>
          injection heq with h1 _
          rw [h1]
        | cons b pre' =>
          injection heq with h1 _
          subst h1
          exact absurd hpa (by rw [hpre a (List.mem_cons_self _ _)]; simp)
    · have hpa' : p a = false := by simpa using hpa
      rw [List.find?_cons_of_neg _ (by simp [hpa']), ih]
      constructor
      · rintro ⟨pre, suf, heq, hpv, hpre⟩
        refine ⟨a :: pre, suf, by rw [List.cons_append, heq], hpv, ?_⟩
        intro u hu
        rcases List.mem_cons.mp hu with h | h
        · subst h; exact hpa'
        · exact hpre u h
      · rintro ⟨pre, suf, heq, hpv, hpre⟩
        cases pre with
        | nil =>
          injection heq with h1 _
          subst h1
          exact absurd hpv (by simp [hpa'])
        | cons b pre' =>
          injection heq with h1 h2
          exact ⟨pre', suf, h2, hpv, fun u hu => hpre u (List.mem_cons_of_mem _ hu)⟩

theorem find?_eq_none_of_all_false {α : Type} (p : α → Bool) (l : List α)
    (h : ∀ u ∈ l, p u = false) : l.find? p = none :=
  List.find?_eq_none.mpr (fun x hx => by simp [h x hx])

/-- C6: the voice selector returns the first voice whose locale tag matches
the regional-language regex when one exists; otherwise the first voice whose
display name matches the feminine-name regex when one exists; otherwise the
first voice of the list; and `undefined` on an empty list. -/
theorem getPreferredVoice_spec (voices : List Voice) :
    (∀ v, FirstMatch (fun u => testCI langPatterns u.lang) voices v →
        getPreferredVoice voices = some v) ∧
    ((∀ u ∈ voices, testCI langPatterns u.lang = false) →
      ∀ v, FirstMatch (fun u => testCI namePatterns u.name) voices v →
        getPreferredVoice voices = some v) ∧
    ((∀ u ∈ voices, testCI langPatterns u.lang = false) →
      (∀ u ∈ voices, testCI namePatterns u.name = false) →
        getPreferredVoice voices = voices.head?) ∧
    getPreferredVoice [] = none := by
  refine ⟨?_, ?_, ?_, rfl⟩
  · intro v hv
    unfold getPreferredVoice
    rw [(find?_eq_some_iff_firstMatch _ _ _).mpr hv]
    rfl
  · intro hall v hv
    unfold getPreferredVoice
    rw [find?_eq_none_of_all_false _ _ hall,
      (find?_eq_some_iff_firstMatch _ _ _).mpr hv]
    rfl
  · intro hall1 hall2
    unfold getPreferredVoice
    rw [find?_eq_none_of_all_false _ _ hall1, find?_eq_none_of_all_false _ _ hall2]
    rfl

/-- Witness for C6: in a list with no first-position match, the selector picks
the `en-IN` voice. -/
theorem getPreferredVoice_spec_witness :
    getPreferredVoice [⟨"en-US", "David"⟩, ⟨"en-IN", "Heera"⟩] =
      some ⟨"en-IN", "Heera"⟩ :=
  (getPreferredVoice_spec _).1 _
    ⟨[⟨"en-US", "David"⟩], [], rfl, by decide, by decide⟩

/-! ## Conversation client claims -/

/-- C1 counterexample: an HTTP 2xx response whose body carries
`{ error: "busy" }` is NOT treated as failure — the invocation ends with
status `Idle`, schedules no recovery timer, and speaks the apology fallback
instead of the connection-issue message, because the only test of
`data.error` sits inside `if (!response.ok)`. -/
theorem sendToLyra_error_on_ok_cex :
    (sendToLyra initialState
      (.response true ⟨some "busy", none, none, none⟩)).state.status ≠ "Error" ∧
    (sendToLyra initialState
      (.response true ⟨some "busy", none, none, none⟩)).state.status = "Idle" ∧
    (sendToLyra initialState
      (.response true ⟨some "busy", none, none, none⟩)).timer = none ∧
    (sendToLyra initialState
      (.response true ⟨some "busy", none, none, none⟩)).spoken = [apologyReply] :=
  ⟨by decide, rfl, rfl, rfl⟩

/-- C1 (amended): an invocation is treated as failure exactly when the
response status is not ok (the `error` field then only feeds the thrown
message); on an ok response the `error` field is ignored — for every body,
`error` present or not, the success path runs and ends at `Idle` with no
recovery timer. -/
theorem sendToLyra_failure_iff_not_ok (s : InteractionState) (data : LyraData) :
    ((sendToLyra s (.response false data)).state.status = "Error" ∧
      (sendToLyra s (.response false data)).spoken = [connectionIssueMessage] ∧
      (sendToLyra s (.response false data)).timer = some (1200, "Idle")) ∧
    ((sendToLyra s (.response true data)).state.status = "Idle" ∧
      (sendToLyra s (.response true data)).timer = none) :=
  ⟨⟨rfl, rfl, rfl⟩, rfl, rfl⟩

/-- C3 counterexample: on an ok response whose body has
`currentSpeaker: ""` (present, but falsy), the client does not set
`state.currentSpeaker` to the response's value `""`; it keeps the prior
value, because `data.currentSpeaker || state.currentSpeaker` treats the
empty string as absent. -/
theorem sendToLyra_success_sets_present_cex :
    (sendToLyra initialState
      (.response true ⟨none, some "hi", some "", none⟩)).state.currentSpeaker ≠ "" ∧
    (sendToLyra initialState
      (.response true ⟨none, some "hi", some "", none⟩)).state.currentSpeaker =
      initialState.currentSpeaker :=
  ⟨by decide, rfl⟩

/-- C3 (amended): on an ok response, `currentSpeaker` and `mode` are set to
the response's values when present and non-empty and retained otherwise
(absent or empty ⇒ no change); `speak` is invoked with the response's
`reply` when present and non-empty, and with the fixed apology string
otherwise; the invocation finishes with status `Idle`. -/
theorem sendToLyra_success_path (s : InteractionState) (data : LyraData) :
    (∀ v, data.currentSpeaker = some v → v ≠ "" →
      (sendToLyra s (.response true data)).state.currentSpeaker = v) ∧
    ((data.currentSpeaker = none ∨ data.currentSpeaker = some "") →
      (sendToLyra s (.response true data)).state.currentSpeaker = s.currentSpeaker) ∧
    (∀ v, data.mode = some v → v ≠ "" →
      (sendToLyra s (.response true data)).state.mode = v) ∧
    ((data.mode = none ∨ data.mode = some "") →
      (sendToLyra s (.response true data)).state.mode = s.mode) ∧
    (∀ r, data.reply = some r → r ≠ "" →
      (sendToLyra s (.response true data)).spoken = [r]) ∧
    ((data.reply = none ∨ data.reply = some "") →
      (sendToLyra s (.response true data)).spoken = [apologyReply]) ∧
    (sendToLyra s (.response true data)).state.status = "Idle" := by
  refine ⟨?_, ?_, ?_, ?_, ?_, ?_, rfl⟩
  · intro v hv hne
    simp [sendToLyra, setStatus, jsOrStr, hv, hne]
  · rintro (h | h) <;> simp [sendToLyra, setStatus, jsOrStr, h]
  · intro v hv hne
    simp [sendToLyra, setStatus, jsOrStr, hv, hne]
  · rintro (h | h) <;> simp [sendToLyra, setStatus, jsOrStr, h]
  · intro r hr hne
    simp [sendToLyra, setStatus, jsOrStr, hr, hne]
  · rintro (h | h) <;> simp [sendToLyra, setStatus, jsOrStr, h]

/-- Witness for the amended C3: a response with a non-empty speaker, an empty
mode and a non-empty reply sets the speaker, keeps the mode, speaks the reply
and ends at `Idle`. -/
theorem sendToLyra_success_path_witness :
    (sendToLyra initialState
      (.response true ⟨none, some "hi", some "Maya", some ""⟩)).state.currentSpeaker =
        "Maya" ∧
    (sendToLyra initialState
      (.response true ⟨none, some "hi", some "Maya", some ""⟩)).state.mode = "CHILL" ∧
    (sendToLyra initialState
      (.response true ⟨none, some "hi", some "Maya", some ""⟩)).spoken = ["hi"] ∧
    (sendToLyra initialState
      (.response true ⟨none, some "hi", some "Maya", some ""⟩)).state.status = "Idle" := by
  have h := sendToLyra_success_path initialState ⟨none, some "hi", some "Maya", some ""⟩
  exact ⟨h.1 "Maya" rfl (by decide), h.2.2.2.1 (Or.inr rfl),
    h.2.2.2.2.1 "hi" rfl (by decide), h.2.2.2.2.2.2⟩

/-- C4: whenever the fetch, the JSON parse or the `!response.ok` check
throws, the exception is absorbed by the `catch` block (the function is total
on these outcomes): status becomes `Error`, the fixed connection-issue
message is spoken, and a 1200 ms timer scheduling `setStatus('Idle')` is
installed. -/
theorem sendToLyra_throw_path (s : InteractionState) (o : FetchOutcome)
    (h : isThrowPath o = true) :
    (sendToLyra s o).state.status = "Error" ∧
    (sendToLyra s o).spoken = [connectionIssueMessage] ∧
    (sendToLyra s o).timer = some (1200, "Idle") := by
  cases o with
  | networkThrow => exact ⟨rfl, rfl, rfl⟩
  | parseThrow => exact ⟨rfl, rfl, rfl⟩
  | response ok data =>
    have hok : ok = false := by simpa [isThrowPath] using h
    subst hok
    exact ⟨rfl, rfl, rfl⟩

/-- Witness for C4 at a rejected fetch. -/
theorem sendToLyra_throw_path_witness :
    isThrowPath .networkThrow = true ∧
    (sendToLyra initialState .networkThrow).state.status = "Error" ∧
    (sendToLyra initialState .networkThrow).spoken = [connectionIssueMessage] ∧
    (sendToLyra initialState .networkThrow).timer = some (1200, "Idle") :=
  ⟨rfl, sendToLyra_throw_path initialState .networkThrow rfl⟩

/-- C9: on every failure path (thrown fetch, thrown parse, or non-ok status),
`currentSpeaker`, `mode` and `recognitionActive` keep the values they had
when the invocation started — only `status` is written. -/
theorem sendToLyra_failure_frame (s : InteractionState) (o : FetchOutcome)
    (h : isThrowPath o = true) :
    (sendToLyra s o).state.currentSpeaker = s.currentSpeaker ∧
    (sendToLyra s o).state.mode = s.mode ∧
    (sendToLyra s o).state.recognitionActive = s.recognitionActive := by
  cases o with
  | networkThrow => exact ⟨rfl, rfl, rfl⟩
  | parseThrow => exact ⟨rfl, rfl, rfl⟩
  | response ok data =>
    have hok : ok = false := by simpa [isThrowPath] using h
    subst hok
    exact ⟨rfl, rfl, rfl⟩

/-- Witness for C9 at a non-ok HTTP response. -/
theorem sendToLyra_failure_frame_witness :
    isThrowPath (.response false ⟨some "busy", none, none, none⟩) = true ∧
    (sendToLyra initialState
      (.response false ⟨some "busy", none, none, none⟩)).state.currentSpeaker =
      initialState.currentSpeaker ∧
    (sendToLyra initialState
      (.response false ⟨some "busy", none, none, none⟩)).state.mode =
      initialState.mode ∧
    (sendToLyra initialState
      (.response false ⟨some "busy", none, none, none⟩)).state.recognitionActive =
      initialState.recognitionActive :=
  ⟨rfl, sendToLyra_failure_frame initialState _ rfl⟩

/-- C10: on an ok response, a field that is present but falsy (the empty
string) is treated exactly like an absent field — the prior state value is
retained for `currentSpeaker` and for `mode`. -/
theorem sendToLyra_falsy_field_retains (s : InteractionState) (data : LyraData) :
    (data.currentSpeaker = some "" →
      (sendToLyra s (.response true data)).state.currentSpeaker = s.currentSpeaker) ∧
    (data.mode = some "" →
      (sendToLyra s (.response true data)).state.mode = s.mode) := by
  constructor
  · intro h
    simp [sendToLyra, setStatus, jsOrStr, h]
  · intro h
    simp [sendToLyra, setStatus, jsOrStr, h]

/-- Witness for C10: both fields present and empty, both retained. -/
theorem sendToLyra_falsy_field_retains_witness :
    (sendToLyra initialState
      (.response true ⟨none, none, some "", some ""⟩)).state.currentSpeaker =
      "Chaitu" ∧
    (sendToLyra initialState
      (.response true ⟨none, none, some "", some ""⟩)).state.mode = "CHILL" := by
  have h := sendToLyra_falsy_field_retains initialState ⟨none, none, some "", some ""⟩
  exact ⟨h.1 rfl, h.2 rfl⟩

/-! ## Recognition result handler claim -/

/-- C7: when the extracted transcript (empty when structurally absent)
sanitizes to the empty string, `onresult` sets status to `Idle` and performs
no dispatch to `sendToLyra`; when it sanitizes to a non-empty string, that
string is dispatched and the synchronous prefix of `sendToLyra` has set
status to `Thinking`. -/
theorem onresult_empty_idle_else_dispatch (s : InteractionState)
    (t : Option JSValue) :
    (sanitizeSpokenInput (jsOrEmpty (t.getD .undefined)) = "" →
      (onresult s t).state.status = "Idle" ∧ (onresult s t).dispatched = none) ∧
    (sanitizeSpokenInput (jsOrEmpty (t.getD .undefined)) ≠ "" →
      (onresult s t).dispatched =
        some (sanitizeSpokenInput (jsOrEmpty (t.getD .undefined))) ∧
      (onresult s t).state.status = "Thinking") := by
  constructor
  · intro h
    unfold onresult
    rw [if_pos h]
    exact ⟨rfl, rfl⟩
  · intro h
    unfold onresult
    rw [if_neg h]
    exact ⟨rfl, rfl⟩

/-- Witness for C7: a structurally absent transcript falls back to `Idle`
with no dispatch, and the transcript `"hi"` is dispatched. -/
theorem onresult_empty_idle_else_dispatch_witness :
    ((onresult initialState none).state.status = "Idle" ∧
      (onresult initialState none).dispatched = none) ∧
    ((onresult initialState (some (.str "hi"))).dispatched = some "hi" ∧
      (onresult initialState (some (.str "hi"))).state.status = "Thinking") := by
  constructor
  · exact (onresult_empty_idle_else_dispatch initialState none).1 (by decide)
  · have h :=
      (onresult_empty_idle_else_dispatch initialState (some (.str "hi"))).2
        (by decide)
    exact ⟨by rw [h.1]; decide, h.2⟩

/-! ## State machine invariant -/

/-- C5: every state-mutating operation of the app (each recognition
callback, each resolution of a pending request, each recovery timer, the
mic-button branches and the unsupported-browser branch) leaves `status`
equal to one of the four enum values, and the UI refresh is a pure
projection: it depends only on the displayed fields of the interaction
state. -/
theorem applyEvent_status_valid (s : InteractionState) (e : AppEvent)
    (h : validStatus s) :
    validStatus (applyEvent s e) ∧
    (∀ s1 s2 : InteractionState, s1.status = s2.status →
      s1.currentSpeaker = s2.currentSpeaker → s1.mode = s2.mode →
      updateUI s1 = updateUI s2) := by
  constructor
  · unfold validStatus
    cases e with
    | recStart => exact Or.inr (Or.inl rfl)
    | recResult t =>
      simp only [applyEvent, onresult]
      split
      · exact Or.inl rfl
      · exact Or.inr (Or.inr (Or.inl rfl))
    | recError => exact Or.inr (Or.inr (Or.inr rfl))
    | recEnd =>
      simp only [applyEvent]
      split
      · exact Or.inl rfl
      · exact h
    | fetchDone o =>
      cases o with
      | networkThrow => exact Or.inr (Or.inr (Or.inr rfl))
      | parseThrow => exact Or.inr (Or.inr (Or.inr rfl))
      | response ok data =>
        cases ok with
        | true => exact Or.inl rfl
        | false => exact Or.inr (Or.inr (Or.inr rfl))
    | timerIdle => exact Or.inl rfl
    | micClickStop => exact Or.inl rfl
    | micStartThrow => exact Or.inl rfl
    | unsupportedBrowser => exact Or.inr (Or.inr (Or.inr rfl))
  · intro s1 s2 h1 h2 h3
    unfold updateUI
    rw [h1, h2, h3]

/-- Witness for C5: the initial state is valid and stays valid across a
start-of-recognition event. -/
theorem applyEvent_status_valid_witness :
    validStatus initialState ∧ validStatus (applyEvent initialState .recStart) :=
  ⟨Or.inl rfl, (applyEvent_status_valid initialState .recStart (Or.inl rfl)).1⟩
